import Mathlib

/-!
Shallow embedding of the synchronization core of the go-safe repository
(packages subject, queue, internal/buffer), together with proofs about the
claims of its specification.

Modelling conventions:

- Go errors are modelled by `Option GoErr` where `none` is the nil error.
- A Go pointer receiver that may be nil is modelled by an `Option` of the
  state; methods that mutate the receiver are modelled by state passing
  (they return the new state alongside the Go results).
- Go `int` is modelled by `Int` (the sizes involved never approach the
  64-bit overflow boundary).
- Concurrency is modelled sequentially: each operation is an atomic step
  between the lock acquire and release of the source; a blocking operation
  that cannot complete in the current state is given an explicit
  "blocks" outcome or is parameterised by the environment event (such as a
  receiver being ready on a channel) that would unblock it.
-/

namespace GoSafe

/-- Errors produced by the repository. `nilReceiver` is common.ErrNilReceiver,
`emptyQueue` is queue.ErrEmptyQueue, `keyNotExist` is subject.ErrKeyNotExist,
`stop` is subject.ErrStop, `alreadyClosed` is internal.ErrAlreadyClosed, and
`joined errs` is the composite error built by errors.Join from the non-nil
errors `errs`. An arbitrary error supplied by user code (such as an observer
callback) is any value of this type. -/
inductive GoErr where
  | nilReceiver
  | emptyQueue
  | keyNotExist
  | stop
  | alreadyClosed
  | joined (errs : List GoErr)

/-- Model of errors.Join as used in Subject.NotifyAll: the argument list has
already been filtered of nil errors, so the result is the nil error exactly
when the list is empty, and otherwise the composite error of the list. -/
def errorsJoin (errs : List GoErr) : Option GoErr :=
  if errs.isEmpty then none else some (GoErr.joined errs)

/-- Model of subject.Subject[T]. An observer is modelled by its Notify
action (a function from the observed change to the returned Go error);
Cleanup plays no role in the claims. -/
structure Subject (T : Type) where
  state : T
  observers : List (T → Option GoErr)

/-- Model of Subject.NotifyAll. The source snapshots the state and the
observer list under a read lock, runs every observer concurrently on the
snapshot, collects the non-nil errors under a mutex, and joins them with
errors.Join. Sequentially this collects, in observer order, the non-nil
results of applying each observer to the state. Every observer is applied:
a failing observer never prevents the others from running. -/
def Subject.NotifyAll (s : Option (Subject T)) : Option GoErr :=
  match s with
  | none => some .nilReceiver
  | some s =>
    let state := s.state
    let observers := s.observers
    let errs := observers.filterMap (fun o => o state)
    errorsJoin errs

/-- Model of Subject.Set: store the new value, then NotifyAll. -/
def Subject.Set (s : Option (Subject T)) (value : T) : Option (Subject T) × Option GoErr :=
  match s with
  | none => (none, some .nilReceiver)
  | some s =>
    let s1 : Subject T := { s with state := value }
    (some s1, Subject.NotifyAll (some s1))

/-- Model of Subject.Notify (the Observer-interface method of Subject):
store the change, then NotifyAll. -/
def Subject.Notify (s : Option (Subject T)) (change : T) : Option (Subject T) × Option GoErr :=
  match s with
  | none => (none, some .nilReceiver)
  | some s =>
    let s1 : Subject T := { s with state := change }
    (some s1, Subject.NotifyAll (some s1))

/-- Model of Subject.Get. The Go zero value of T is modelled by `default`. -/
def Subject.Get [Inhabited T] (s : Option (Subject T)) : T × Option GoErr :=
  match s with
  | none => (default, some .nilReceiver)
  | some s => (s.state, none)

/-- Model of Subject.MustGet. -/
def Subject.MustGet [Inhabited T] (s : Option (Subject T)) : T :=
  match s with
  | none => default
  | some s => s.state

/-- Model of Subject.Edit. The Go mutator func(elem \x2aT) is modelled as a
function T → T; a nil function is `none`. The source checks the function
for nil before it checks the receiver for nil. -/
def Subject.Edit (s : Option (Subject T)) (fn : Option (T → T)) :
    Option (Subject T) × Option GoErr :=
  match fn with
  | none => (s, none)
  | some fn =>
    match s with
    | none => (none, some .nilReceiver)
    | some s =>
      let s1 : Subject T := { s with state := fn s.state }
      (some s1, Subject.NotifyAll (some s1))

/-- Model of Subject.Attach. A nil observer is `none`; the source checks the
observer for nil before it checks the receiver for nil. -/
def Subject.Attach (s : Option (Subject T)) (o : Option (T → Option GoErr)) :
    Option (Subject T) × Option GoErr :=
  match o with
  | none => (s, none)
  | some o =>
    match s with
    | none => (none, some .nilReceiver)
    | some s => (some { s with observers := s.observers ++ [o] }, none)

/-- Model of queue.Queue[T]. `front` is the sequence of values reachable
from the front pointer through the next links; `back` is the value at the
node the back pointer aliases (`none` when the back pointer is nil). The
source maintains the back pointer as an alias of the last node of the front
chain, so linking a node after the back node is modelled as appending to
`front`. `size` is the state of the size Subject, `none` when that Subject
pointer is nil; its observers are not part of this model (the Buffer-wired
size observer is modelled separately by `StartedBuffer`). -/
structure Queue (V : Type) where
  front : List V
  back : Option V
  size : Option Int

/-- Model of the `q := new(Queue[T])` constructor: all pointers nil. -/
def Queue.new : Queue V := { front := [], back := none, size := none }

/-- Model of Queue.Enqueue: link a fresh node after the back node (or make
it the front when the back pointer is nil), point back at it, lazily create
the size Subject, and increment it by one (Edit, whose notification error is
discarded by the source). -/
def Queue.Enqueue (q : Option (Queue V)) (value : V) : Option (Queue V) × Option GoErr :=
  match q with
  | none => (none, some .nilReceiver)
  | some q =>
    let q1 : Queue V :=
      match q.back with
      | none => { q with front := [value], back := some value }
      | some _ => { q with front := q.front ++ [value], back := some value }
    let size0 : Int := match q1.size with | none => 0 | some v => v
    (some { q1 with size := some (size0 + 1) }, none)

/-- Model of Queue.EnqueueMany: an empty argument list succeeds at once
(even on a nil receiver); otherwise each value is enqueued in order with
the individual errors discarded. -/
def Queue.EnqueueMany (q : Option (Queue V)) (values : List V) :
    Option (Queue V) × Option GoErr :=
  match values with
  | [] => (q, none)
  | _ =>
    match q with
    | none => (none, some .nilReceiver)
    | some q0 =>
      (values.foldl (fun acc v => (Queue.Enqueue acc v).1) (some q0), none)

/-- Model of Queue.Dequeue: remove the front node; when it was the only node
also nil the back pointer; then decrement the size Subject (Edit on a nil
size Subject is a discarded nil-receiver error and changes nothing). -/
def Queue.Dequeue [Inhabited V] (q : Option (Queue V)) :
    Option (Queue V) × V × Option GoErr :=
  match q with
  | none => (none, default, some .nilReceiver)
  | some q =>
    match q.front with
    | [] => (some q, default, some .emptyQueue)
    | toRemove :: rest =>
      let q1 : Queue V :=
        match rest with
        | [] => { q with front := [], back := none }
        | _ => { q with front := rest }
      let q2 : Queue V :=
        { q1 with size := match q1.size with | none => none | some v => some (v - 1) }
      (some q2, toRemove, none)

/-- Model of Queue.Peek: return the value at the front node without any
mutation. -/
def Queue.Peek [Inhabited V] (q : Option (Queue V)) : V × Option GoErr :=
  match q with
  | none => (default, some .nilReceiver)
  | some q =>
    match q.front with
    | [] => (default, some .emptyQueue)
    | v :: _ => (v, none)

/-- Model of Queue.IsEmpty: the front pointer is nil (a nil queue counts as
empty). -/
def Queue.IsEmpty (q : Option (Queue V)) : Bool :=
  match q with
  | none => true
  | some q => q.front.isEmpty

/-- Model of Queue.Size: MustGet of the size Subject (0 when the queue or
the size Subject is nil). -/
def Queue.Size (q : Option (Queue V)) : Int :=
  match q with
  | none => 0
  | some q => match q.size with | none => 0 | some v => v

/-- Model of Queue.Reset: a no-op on an already empty queue; otherwise nil
the front and back pointers and drop the size Subject. -/
def Queue.Reset (q : Option (Queue V)) : Option (Queue V) :=
  match q with
  | none => none
  | some q =>
    match q.front with
    | [] => some q
    | _ => some { q with front := [], back := none, size := none }

/-- Mutating queue operations, for stating properties of every operation
sequence. -/
inductive QueueOp (V : Type) where
  | enqueue (v : V)
  | dequeue
  | reset
  | enqueueMany (vs : List V)

/-- Apply one queue operation, keeping only the queue state. -/
def QueueOp.apply [Inhabited V] (q : Option (Queue V)) : QueueOp V → Option (Queue V)
  | .enqueue v => (Queue.Enqueue q v).1
  | .dequeue => (Queue.Dequeue q).1
  | .reset => Queue.Reset q
  | .enqueueMany vs => (Queue.EnqueueMany q vs).1

/-- Apply a sequence of queue operations from left to right. -/
def QueueOp.applyAll [Inhabited V] (q : Option (Queue V)) (ops : List (QueueOp V)) :
    Option (Queue V) :=
  ops.foldl QueueOp.apply q

/-- Structural invariant of the queue: the front pointer is nil exactly when
the queue holds no elements, the back pointer aliases the last-linked node
(nil exactly when the queue is empty), and the size Subject's value equals
the number of live elements. -/
def Queue.Inv (q : Queue V) : Prop :=
  (q.front = [] ↔ q.back = none) ∧
  q.back = q.front.getLast? ∧
  Queue.Size (some q) = (q.front.length : Int)

/-- Model of subject.Locker[T]. Each registered condition key is paired
with the boolean state of its Subject[bool]; the Go map is modelled as an
association list (the source only ever iterates over all entries, so entry
order is irrelevant). The observer SetSubject attaches to each such Subject
only pulses the shared condition variable (Broadcast or Signal) and has no
effect on this state, so it is not represented. -/
structure Locker (K : Type) where
  subjects : List (K × Bool)

/-- Model of Locker.hasFalse: build a copy of the condition map by reading
every subject with MustGet (here the subjects list is already that map),
and report whether at least one of the conditions is false. -/
def Locker.hasFalse (l : Locker K) : List (K × Bool) × Bool :=
  let mapCopy := l.subjects
  (mapCopy, mapCopy.any (fun p => !p.2))

/-- Model of Locker.DoFunc. The source loops: call hasFalse; if it reports
a false condition, release the lock and call f on the snapshot, returning
f's error verbatim; otherwise wait on the condition variable and retry. The
outer Option models the wait: `none` means DoFunc is blocked on the
condition variable (in this one-step model nothing else mutates the
conditions, so the wait does not end); `some e` means DoFunc returned with
Go error e. A nil receiver returns the nil-receiver error without waiting. -/
def Locker.DoFunc (l : Option (Locker K)) (f : List (K × Bool) → Option GoErr) :
    Option (Option GoErr) :=
  match l with
  | none => some (some .nilReceiver)
  | some l =>
    let (mapCopy, ok) := l.hasFalse
    if ok then some (f mapCopy) else none

/-- Model of internal.BufferCondition. -/
inductive BufferCondition where
  | IsEmpty
  | IsRunning
deriving DecidableEq

/-- Model of internal.Buffer[T] for its public operations. `sendTo` and
`receiveFrom` record whether the corresponding channel field is non-nil;
`q` and `locker` are the owned queue and locker pointers. The WaitGroup and
the two background goroutines are outside this state. -/
structure Buffer (V : Type) where
  q : Option (Queue V)
  sendTo : Bool
  receiveFrom : Bool
  locker : Option (Locker BufferCondition)

/-- Model of the `b := new(Buffer[T])` constructor: every field nil. -/
def Buffer.new : Buffer V :=
  { q := none, sendTo := false, receiveFrom := false, locker := none }

/-- Model of Buffer.sendSingleMessage, parameterised by whether a receiver
is currently ready on the outbound channel (the environment event deciding
the non-blocking select). Peek the head of the queue; when the peek fails
the queue is empty (or nil) and the method reports (empty, sent) = (true,
true); otherwise, when a receiver is ready, hand the peeked message to the
channel and only then Dequeue, and when no receiver is ready return (false,
false) leaving the queue untouched. The result is (queue state, message
handed to the channel, isEmpty flag, ok flag). -/
def Buffer.sendSingleMessage [Inhabited V] (q : Option (Queue V)) (receiverReady : Bool) :
    Option (Queue V) × Option V × Bool × Bool :=
  let (msg, err) := Queue.Peek q
  match err with
  | some _ => (q, none, true, true)
  | none =>
    if receiverReady then
      let (q1, _, err1) := Queue.Dequeue q
      match err1 with
      | some _ => (q1, some msg, true, false)
      | none => (q1, some msg, false, true)
    else (q, none, false, false)

/-- Model of Buffer.Start. Returns the buffer state, the Go error, and
whether the two background goroutines were launched by this call. A nil
receiver fails with the nil-receiver error; a buffer whose locker is
already non-nil was already started and the call is a no-op returning nil.
Otherwise the locker is created with the IsEmpty and IsRunning conditions
both true, a fresh queue is allocated, ObserveSize creates its size Subject
at 0 and attaches the IsEmpty-updating observer (ObserveSize cannot fail
here since the queue was just allocated), both channels are allocated, and
both goroutines are launched. -/
def Buffer.Start (b : Option (Buffer V)) : Option (Buffer V) × Option GoErr × Bool :=
  match b with
  | none => (none, some .nilReceiver, false)
  | some b =>
    match b.locker with
    | some _ => (some b, none, false)
    | none =>
      let locker : Locker BufferCondition :=
        { subjects := [(BufferCondition.IsEmpty, true), (BufferCondition.IsRunning, true)] }
      let q : Queue V := { front := [], back := none, size := some 0 }
      (some { q := some q, sendTo := true, receiveFrom := true, locker := some locker },
        none, true)

/-- Model of Buffer.Send. A nil receiver fails with the nil-receiver error;
a nil inbound channel fails with the already-closed error; otherwise the
send blocks until the inbound loop accepts the value and returns nil (the
blocking handoff has no error outcome). -/
def Buffer.Send (b : Option (Buffer V)) (msg : V) : Option GoErr :=
  match b with
  | none => some .nilReceiver
  | some b =>
    if b.sendTo then none else some .alreadyClosed

/-- Model of Buffer.Receive, parameterised by the outcome of the channel
receive: `some v` means a value was relayed, `none` means the outbound
channel was closed and drained (the comma-ok form reports false). A nil
receiver fails with the nil-receiver error; a nil outbound channel fails
with the already-closed error; a closed-and-drained channel also fails with
the already-closed error; otherwise the relayed value is returned with a
nil error. -/
def Buffer.Receive [Inhabited V] (b : Option (Buffer V)) (recv : Option V) :
    V × Option GoErr :=
  match b with
  | none => (default, some .nilReceiver)
  | some b =>
    if b.receiveFrom then
      match recv with
      | some msg => (msg, none)
      | none => (default, some .alreadyClosed)
    else (default, some .alreadyClosed)

/-- State of the size Subject of a started Buffer's queue: its integer
value together with whether the Buffer's IsEmpty-updating observer (the one
ObserveSize attached at Start) is in its observer list. -/
structure SizeSubject where
  value : Int
  observed : Bool

/-- Model of a started Buffer's queue together with the two Locker
conditions, including the ObserveSize wiring: whenever the size Subject is
edited and the Buffer's observer is attached, NotifyAll runs that observer,
which calls Locker.ChangeValue(IsEmpty, newSize == 0), setting the IsEmpty
condition Subject (whose own attached observer merely broadcasts the shared
condition variable). -/
structure StartedBuffer (V : Type) where
  front : List V
  back : Option V
  size : Option SizeSubject
  isEmptyCond : Bool
  isRunningCond : Bool

/-- State of a Buffer right after Buffer.Start: empty queue, size Subject
created by ObserveSize at value 0 with the IsEmpty observer attached, and
both Locker conditions registered as true. -/
def StartedBuffer.start : StartedBuffer V :=
  { front := [], back := none, size := some { value := 0, observed := true },
    isEmptyCond := true, isRunningCond := true }

/-- Model of Queue.Size on the started Buffer's queue. -/
def StartedBuffer.queueSize (st : StartedBuffer V) : Int :=
  match st.size with
  | none => 0
  | some s => s.value

/-- Model of Queue.Enqueue on a started Buffer, with the size notification
wired through. When the size Subject is nil it is lazily recreated at value
0, but without the Buffer's observer, so the increment notifies nobody and
the IsEmpty condition is left untouched; when the observer is attached the
IsEmpty condition is set to (new size == 0). -/
def StartedBuffer.enqueue (st : StartedBuffer V) (value : V) : StartedBuffer V :=
  let st1 : StartedBuffer V :=
    match st.back with
    | none => { st with front := [value], back := some value }
    | some _ => { st with front := st.front ++ [value], back := some value }
  match st1.size with
  | none =>
    { st1 with size := some { value := 0 + 1, observed := false } }
  | some s =>
    let newVal := s.value + 1
    let st2 : StartedBuffer V := { st1 with size := some { s with value := newVal } }
    if s.observed then { st2 with isEmptyCond := decide (newVal = 0) } else st2

/-- Model of Queue.Dequeue on a started Buffer, with the size notification
wired through. An empty queue fails with the empty-queue error and changes
nothing. Edit on a nil size Subject is a discarded nil-receiver error and
changes nothing. -/
def StartedBuffer.dequeue (st : StartedBuffer V) : StartedBuffer V × Option GoErr :=
  match st.front with
  | [] => (st, some .emptyQueue)
  | _ :: rest =>
    let st1 : StartedBuffer V :=
      match rest with
      | [] => { st with front := [], back := none }
      | _ => { st with front := rest }
    match st1.size with
    | none => (st1, none)
    | some s =>
      let newVal := s.value - 1
      let st2 : StartedBuffer V := { st1 with size := some { s with value := newVal } }
      (if s.observed then { st2 with isEmptyCond := decide (newVal = 0) } else st2, none)

/-- Model of Queue.Reset on a started Buffer: a no-op on an already empty
queue; otherwise nil the front and back pointers and drop the size Subject
(together with its attached observer) without any notification, leaving
the IsEmpty condition at its previous value. -/
def StartedBuffer.reset (st : StartedBuffer V) : StartedBuffer V :=
  match st.front with
  | [] => st
  | _ => { st with front := [], back := none, size := none }

/-- Size-changing operations on a started Buffer other than Reset. -/
inductive SBOp (V : Type) where
  | enqueue (v : V)
  | dequeue

/-- Apply one such operation. -/
def SBOp.apply (st : StartedBuffer V) : SBOp V → StartedBuffer V
  | .enqueue v => st.enqueue v
  | .dequeue => (st.dequeue).1

/-- Apply a sequence of such operations from left to right. -/
def SBOp.applyAll (st : StartedBuffer V) (ops : List (SBOp V)) : StartedBuffer V :=
  ops.foldl SBOp.apply st

/-- Enqueue a list of values in order (the loop body of Queue.EnqueueMany,
and the producer side of the FIFO property), keeping only the queue state. -/
def enqueueSeq [Inhabited V] (q : Option (Queue V)) (vs : List V) : Option (Queue V) :=
  vs.foldl (fun acc v => (Queue.Enqueue acc v).1) q

/-- Dequeue n times, returning the final queue state and the list of
(value, error) results in call order. -/
def dequeueSeq [Inhabited V] (q : Option (Queue V)) : Nat → Option (Queue V) × List (V × Option GoErr)
  | 0 => (q, [])
  | n + 1 =>
    let r := Queue.Dequeue q
    let rest := dequeueSeq r.1 n
    (rest.1, (r.2.1, r.2.2) :: rest.2)

/-- Concrete two-element queue used to evaluate the peek-then-pop protocol. -/
def qTwo : Queue Nat := { front := [3, 5], back := some 5, size := some 2 }

/-- Concrete subject with one succeeding and two failing observers, used to
evaluate error aggregation. -/
def sThree : Subject Nat :=
  { state := 0,
    observers := [fun _ => none, fun _ => some GoErr.stop, fun _ => some GoErr.keyNotExist] }

/-- Concrete buffer whose channels are both present (as right after Start). -/
def bufOpen : Buffer Nat :=
  { q := none, sendTo := true, receiveFrom := true, locker := none }

/-- Concrete buffer whose channels are both gone (as after Close). -/
def bufShut : Buffer Nat :=
  { q := none, sendTo := false, receiveFrom := false, locker := none }

/-- The buffer state produced by Buffer.Start on a fresh Buffer of Nat. -/
def bufStarted : Buffer Nat :=
  { q := some { front := [], back := none, size := some 0 },
    sendTo := true, receiveFrom := true,
    locker := some { subjects := [(BufferCondition.IsEmpty, true), (BufferCondition.IsRunning, true)] } }

/-- Concrete locker with a single registered condition that is false. -/
def lkFalse : Locker BufferCondition :=
  { subjects := [(BufferCondition.IsEmpty, false)] }

/-- Coupling invariant of a started Buffer before any Reset: the back
pointer aliases the last node, the size Subject is present with the
IsEmpty-updating observer attached and its value equal to the element
count, and the IsEmpty condition reflects emptiness. -/
def StartedBuffer.Wired (st : StartedBuffer V) : Prop :=
  st.back = st.front.getLast? ∧
  st.size = some { value := (st.front.length : Int), observed := true } ∧
  st.isEmptyCond = decide ((st.front.length : Int) = 0)

/-- The freshly constructed queue satisfies the structural invariant. -/
theorem Queue.inv_new {V : Type} : Queue.Inv (Queue.new (V := V)) := by
  refine ⟨by simp [Queue.new], by simp [Queue.new], by simp [Queue.new, Queue.Size]⟩

/-- Queue.Enqueue on a queue satisfying the invariant succeeds, links the
value at the back, and preserves the invariant. -/
theorem Queue.enqueue_spec {V : Type} [Inhabited V] (q : Queue V) (v : V) (h : Queue.Inv q) :
    ∃ q1 : Queue V, Queue.Enqueue (some q) v = (some q1, none) ∧ Queue.Inv q1 ∧
      q1.front = q.front ++ [v] := by
  obtain ⟨h1, h2, h3⟩ := h
  cases hb : q.back with
  | none =>
    have hf : q.front = [] := h1.mpr hb
    cases hsz : q.size with
    | none =>
      refine ⟨{ front := [v], back := some v, size := some 1 }, ?_, ?_, ?_⟩
      · simp [Queue.Enqueue, hb, hsz]
      · exact ⟨by simp, by simp, by simp [Queue.Size]⟩
      · rw [hf]
        simp
    | some n =>
      have hn : n = 0 := by
        simp only [Queue.Size, hsz, hf] at h3
        exact_mod_cast h3
      refine ⟨{ front := [v], back := some v, size := some (n + 1) }, ?_, ?_, ?_⟩
      · simp [Queue.Enqueue, hb, hsz]
      · exact ⟨by simp, by simp, by simp [Queue.Size, hn]⟩
      · rw [hf]
        simp
  | some b =>
    have hf : q.front ≠ [] := by
      intro hnil
      rw [h2, hnil] at hb
      simp at hb
    cases hsz : q.size with
    | none =>
      exfalso
      simp only [Queue.Size, hsz] at h3
      have : q.front.length = 0 := by exact_mod_cast h3.symm
      exact hf (List.length_eq_zero.mp this)
    | some n =>
      have hn : n = (q.front.length : Int) := by
        simp only [Queue.Size, hsz] at h3
        exact h3
      refine ⟨{ front := q.front ++ [v], back := some v, size := some (n + 1) }, ?_, ?_, rfl⟩
      · simp [Queue.Enqueue, hb, hsz]
      · refine ⟨by simp, by simp [List.getLast?_concat], ?_⟩
        simp only [Queue.Size, hn, List.length_append, List.length_cons, List.length_nil]
        push_cast
        ring

/-- Queue.Dequeue on a non-empty queue returns the front value with no
error, the new front is the tail, and the invariant is preserved. -/
theorem Queue.dequeue_spec {V : Type} [Inhabited V] (q : Queue V) (x : V) (rest : List V)
    (hf : q.front = x :: rest) :
    ∃ q1 : Queue V, Queue.Dequeue (some q) = (some q1, x, none) ∧ q1.front = rest ∧
      (Queue.Inv q → Queue.Inv q1) := by
  cases rest with
  | nil =>
    cases hsz : q.size with
    | none =>
      refine ⟨{ front := [], back := none, size := none }, ?_, rfl, ?_⟩
      · simp [Queue.Dequeue, hf, hsz]
      · intro _
        exact ⟨by simp, by simp, by simp [Queue.Size]⟩
    | some n =>
      refine ⟨{ front := [], back := none, size := some (n - 1) }, ?_, rfl, ?_⟩
      · simp [Queue.Dequeue, hf, hsz]
      · rintro ⟨h1, h2, h3⟩
        have hn : n = 1 := by
          simp only [Queue.Size, hsz, hf] at h3
          exact_mod_cast h3
        exact ⟨by simp, by simp, by simp [Queue.Size, hn]⟩
  | cons y t =>
    cases hsz : q.size with
    | none =>
      refine ⟨{ front := y :: t, back := q.back, size := none }, ?_, rfl, ?_⟩
      · simp [Queue.Dequeue, hf, hsz]
      · rintro ⟨h1, h2, h3⟩
        exfalso
        simp only [Queue.Size, hsz, hf] at h3
        have hlen : (x :: y :: t).length = t.length + 2 := by simp
        rw [hlen] at h3
        push_cast at h3
        omega
    | some n =>
      refine ⟨{ front := y :: t, back := q.back, size := some (n - 1) }, ?_, rfl, ?_⟩
      · simp [Queue.Dequeue, hf, hsz]
      · rintro ⟨h1, h2, h3⟩
        have hn : n = (t.length : Int) + 2 := by
          simp only [Queue.Size, hsz, hf, List.length_cons] at h3
          push_cast at h3
          omega
        refine ⟨?_, ?_, ?_⟩
        · constructor
          · intro hc
            exact absurd hc (by simp)
          · intro hc
            rw [hf] at h2
            rw [List.getLast?_cons_cons] at h2
            rw [h2] at hc
            rw [List.getLast?_eq_none_iff] at hc
            exact absurd hc (by simp)
        · rw [hf] at h2
          rw [List.getLast?_cons_cons] at h2
          exact h2
        · simp only [Queue.Size, List.length_cons, hn]
          push_cast
          ring

/-- Queue.Reset preserves the structural invariant. -/
theorem Queue.reset_spec {V : Type} (q : Queue V) (h : Queue.Inv q) :
    ∃ q1 : Queue V, Queue.Reset (some q) = some q1 ∧ Queue.Inv q1 := by
  cases hf : q.front with
  | nil => exact ⟨q, by simp [Queue.Reset, hf], h⟩
  | cons x t =>
    refine ⟨{ front := [], back := none, size := none }, ?_, ?_⟩
    · simp [Queue.Reset, hf]
    · exact ⟨by simp, by simp, by simp [Queue.Size]⟩

/-- Enqueueing a list of values in order appends them to the front chain
and preserves the invariant. -/
theorem enqueueSeq_spec {V : Type} [Inhabited V] (vs : List V) :
    ∀ q : Queue V, Queue.Inv q →
      ∃ q1 : Queue V, enqueueSeq (some q) vs = some q1 ∧ Queue.Inv q1 ∧
        q1.front = q.front ++ vs := by
  induction vs with
  | nil =>
    intro q h
    exact ⟨q, rfl, h, by simp⟩
  | cons v t ih =>
    intro q h
    obtain ⟨q1, he, h1, hfr⟩ := Queue.enqueue_spec q v h
    obtain ⟨q2, he2, h2, hfr2⟩ := ih q1 h1
    refine ⟨q2, ?_, h2, ?_⟩
    · simp only [enqueueSeq, List.foldl_cons]
      rw [show (Queue.Enqueue (some q) v).1 = some q1 by rw [he]]
      exact he2
    · rw [hfr2, hfr]
      simp

/-- Dequeueing as many times as there are elements returns them all, in
order, each with a nil error. -/
theorem dequeueSeq_spec {V : Type} [Inhabited V] :
    ∀ (l : List V) (q : Queue V), q.front = l →
      (dequeueSeq (some q) l.length).2 = l.map (fun v => (v, none)) := by
  intro l
  induction l with
  | nil =>
    intro q _
    rfl
  | cons x t ih =>
    intro q h
    obtain ⟨q1, hd, hfr, _⟩ := Queue.dequeue_spec q x t h
    simp only [List.length_cons, dequeueSeq, hd, List.map_cons]
    exact congrArg _ (ih q1 hfr)

/-- Every single queue operation takes an invariant-satisfying queue to an
invariant-satisfying queue. -/
theorem queueOp_inv {V : Type} [Inhabited V] (op : QueueOp V) (q : Queue V)
    (h : Queue.Inv q) :
    ∃ q1 : Queue V, QueueOp.apply (some q) op = some q1 ∧ Queue.Inv q1 := by
  cases op with
  | enqueue v =>
    obtain ⟨q1, he, h1, _⟩ := Queue.enqueue_spec q v h
    exact ⟨q1, by simp only [QueueOp.apply]; rw [he], h1⟩
  | dequeue =>
    cases hf : q.front with
    | nil =>
      exact ⟨q, by simp [QueueOp.apply, Queue.Dequeue, hf], h⟩
    | cons x t =>
      obtain ⟨q1, hd, _, hInv⟩ := Queue.dequeue_spec q x t hf
      exact ⟨q1, by simp only [QueueOp.apply]; rw [hd], hInv h⟩
  | reset =>
    obtain ⟨q1, hr, h1⟩ := Queue.reset_spec q h
    exact ⟨q1, hr, h1⟩
  | enqueueMany vs =>
    cases vs with
    | nil => exact ⟨q, rfl, h⟩
    | cons v t =>
      obtain ⟨q1, he, h1, _⟩ := enqueueSeq_spec (v :: t) q h
      exact ⟨q1, he, h1⟩

/-- Every sequence of queue operations preserves the invariant. -/
theorem queueOps_inv {V : Type} [Inhabited V] (ops : List (QueueOp V)) :
    ∀ q : Queue V, Queue.Inv q →
      ∃ q1 : Queue V, QueueOp.applyAll (some q) ops = some q1 ∧ Queue.Inv q1 := by
  induction ops with
  | nil => exact fun q h => ⟨q, rfl, h⟩
  | cons op t ih =>
    intro q h
    obtain ⟨q1, h1, hInv1⟩ := queueOp_inv op q h
    obtain ⟨q2, h2, hInv2⟩ := ih q1 hInv1
    refine ⟨q2, ?_, hInv2⟩
    simp only [QueueOp.applyAll, List.foldl_cons]
    rw [h1]
    exact h2

/-- Claim C3 (confirmed): the Queue is strictly FIFO — enqueueing the values
S1..SN in order into an empty queue (with no other mutation) and then
dequeueing N times yields exactly S1..SN in that order, each Dequeue
succeeding with a nil error. -/
theorem queue_is_fifo {V : Type} [Inhabited V] (vs : List V) :
    (dequeueSeq (enqueueSeq (some (Queue.new (V := V))) vs) vs.length).2
      = vs.map (fun v => (v, none)) := by
  obtain ⟨q1, he, _, hfr⟩ := enqueueSeq_spec vs Queue.new Queue.inv_new
  rw [he]
  have hfr1 : q1.front = vs := by
    rw [hfr]
    simp [Queue.new]
  exact dequeueSeq_spec vs q1 hfr1

/-- Claim C9 (confirmed): starting from an empty queue, after every sequence
of Enqueue, Dequeue, Reset and EnqueueMany operations the structural
invariant holds — the front pointer is nil exactly when the queue holds no
elements, the back pointer aliases the last-linked node and is nil exactly
when the queue is empty, and the size Subject's value equals the number of
live elements. -/
theorem queue_structural_invariant {V : Type} [Inhabited V] (ops : List (QueueOp V)) :
    ∃ q1 : Queue V, QueueOp.applyAll (some (Queue.new (V := V))) ops = some q1 ∧
      Queue.Inv q1 :=
  queueOps_inv ops Queue.new Queue.inv_new

/-- Claim C4 (confirmed): Buffer.sendSingleMessage follows the peek-then-pop
protocol. With no receiver ready it leaves the queue untouched and hands
nothing off, so the same element remains at the head; with a receiver ready
and a non-empty queue, the value handed to the channel is exactly the head,
the element removed is exactly the head, and the remaining queue front is
the tail; with an empty queue nothing is removed. -/
theorem sendSingleMessage_peek_then_pop {V : Type} [Inhabited V] (q : Queue V) :
    ((Buffer.sendSingleMessage (some q) false).1 = some q ∧
      (Buffer.sendSingleMessage (some q) false).2.1 = none) ∧
    (∀ v rest, q.front = v :: rest →
      Buffer.sendSingleMessage (some q) true
        = ((Queue.Dequeue (some q)).1, some v, false, true) ∧
      (Queue.Dequeue (some q)).2.1 = v ∧
      (∀ q1 : Queue V, (Queue.Dequeue (some q)).1 = some q1 → q1.front = rest)) ∧
    (q.front = [] → Buffer.sendSingleMessage (some q) true = (some q, none, true, true)) := by
  refine ⟨?_, ?_, ?_⟩
  · cases hf : q.front with
    | nil => exact ⟨by simp [Buffer.sendSingleMessage, Queue.Peek, hf], by simp [Buffer.sendSingleMessage, Queue.Peek, hf]⟩
    | cons v rest => exact ⟨by simp [Buffer.sendSingleMessage, Queue.Peek, hf], by simp [Buffer.sendSingleMessage, Queue.Peek, hf]⟩
  · intro v rest hf
    obtain ⟨q1, hd, hfr, _⟩ := Queue.dequeue_spec q v rest hf
    refine ⟨?_, ?_, ?_⟩
    · simp [Buffer.sendSingleMessage, Queue.Peek, hf, hd]
    · rw [hd]
    · intro q2 h2
      rw [hd] at h2
      cases h2
      exact hfr
  · intro hf
    simp [Buffer.sendSingleMessage, Queue.Peek, hf]

/-- Witness for sendSingleMessage_peek_then_pop at the concrete queue
holding 3 then 5: with a ready receiver the head 3 is handed off and
dequeued; with no ready receiver the queue is unchanged. -/
theorem sendSingleMessage_peek_then_pop_witness :
    Buffer.sendSingleMessage (some qTwo) true
        = ((Queue.Dequeue (some qTwo)).1, some 3, false, true) ∧
    (Buffer.sendSingleMessage (some qTwo) false).1 = some qTwo :=
  ⟨((sendSingleMessage_peek_then_pop qTwo).2.1 3 [5] rfl).1,
   (sendSingleMessage_peek_then_pop qTwo).1.1⟩

/-- Claim C1 counterexample: with registered conditions IsEmpty=false and
IsRunning=true, DoFunc does not block — it proceeds and invokes f although
a registered condition is false, and f observes a snapshot containing a
false value (the f used here returns ErrStop exactly when its snapshot has
at least one false value). -/
theorem doFunc_counterexample :
    Locker.DoFunc
        (some { subjects := [(BufferCondition.IsEmpty, false), (BufferCondition.IsRunning, true)] })
        (fun m => if m.any (fun p => !p.2) then some GoErr.stop else none)
      = some (some GoErr.stop) := rfl

/-- Claim C1 (amended): DoFunc blocks while every registered condition is
true; it proceeds exactly when at least one registered condition is false,
and it then calls f with the snapshot of all conditions and returns
whatever f returns (including the distinguished stop error) verbatim. -/
theorem doFunc_gate {K : Type} (l : Locker K) (f : List (K × Bool) → Option GoErr) :
    (Locker.DoFunc (some l) f = none ↔ ∀ p ∈ l.subjects, p.2 = true) ∧
    ((∃ p ∈ l.subjects, p.2 = false) →
      Locker.DoFunc (some l) f = some (f l.subjects)) := by
  have hred : Locker.DoFunc (some l) f
      = if l.subjects.any (fun p => !p.2) = true then some (f l.subjects) else none := rfl
  cases hany : l.subjects.any (fun p => !p.2) with
  | true =>
    have hx : ∃ p ∈ l.subjects, p.2 = false := by
      rw [List.any_eq_true] at hany
      obtain ⟨p, hp, hf2⟩ := hany
      exact ⟨p, hp, by simpa using hf2⟩
    constructor
    · rw [hred, hany]
      simp only [if_pos rfl]
      constructor
      · intro h
        exact absurd h (by simp)
      · intro hall
        obtain ⟨p, hp, hfp⟩ := hx
        rw [hall p hp] at hfp
        exact absurd hfp (by simp)
    · intro _
      rw [hred, hany]
      simp
  | false =>
    constructor
    · rw [hred, hany]
      constructor
      · intro _ p hp
        by_contra hne
        have hpf : p.2 = false := by
          cases hp2 : p.2 with
          | true => exact absurd hp2 hne
          | false => rfl
        have hcontra : l.subjects.any (fun p => !p.2) = true :=
          List.any_eq_true.mpr ⟨p, hp, by simp [hpf]⟩
        rw [hany] at hcontra
        exact absurd hcontra (by simp)
      · intro _
        simp
    · intro hx
      obtain ⟨p, hp, hfp⟩ := hx
      have hcontra : l.subjects.any (fun p => !p.2) = true :=
        List.any_eq_true.mpr ⟨p, hp, by simp [hfp]⟩
      rw [hany] at hcontra
      exact absurd hcontra (by simp)

/-- Witness for doFunc_gate at the concrete locker whose single condition
is false: DoFunc proceeds and returns the stop error produced by f. -/
theorem doFunc_gate_witness :
    Locker.DoFunc (some lkFalse) (fun _ => some GoErr.stop) = some (some GoErr.stop) :=
  (doFunc_gate lkFalse (fun _ => some GoErr.stop)).2
    ⟨(BufferCondition.IsEmpty, false), by simp [lkFalse], rfl⟩

/-- Claim C10 (confirmed): Subject.Notify is extensionally equal to
Subject.Set — for every receiver (including nil) and every value they
return the same error and leave the subject in the same state, so a
Subject attached as an observer of another propagates the observed value
as a plain Set. -/
theorem notify_eq_set {T : Type} (s : Option (Subject T)) (v : T) :
    Subject.Notify s v = Subject.Set s v := by
  cases s <;> rfl

/-- Claim C5 counterexample: Subject.Edit invoked on a nil Subject with a
nil mutator returns a nil error, not the nil-receiver error (the source
checks the function argument for nil before the receiver); Subject.Attach
behaves the same with a nil observer. -/
theorem nil_subject_counterexample :
    (Subject.Edit (T := Nat) none none).2 = none ∧
    (Subject.Attach (T := Nat) none none).2 = none ∧
    (Subject.Edit (T := Nat) none none).2 ≠ some GoErr.nilReceiver :=
  ⟨rfl, rfl, fun h => Option.noConfusion h⟩

/-- Claim C5 (amended): every Subject operation invoked on a nil Subject
fails with the nil-receiver error, except Edit with a nil mutator and
Attach with a nil observer, which return a nil error even on a nil Subject;
and the nil-receiver error is the only failure Subject produces on its own:
on a non-nil Subject the error of Set, Notify, Edit and NotifyAll is
exactly the join of the failing observers' errors (nil when none fail), and
Get and Attach never fail. -/
theorem subject_error_classes {T : Type} [Inhabited T] (v : T) (fn : T → T)
    (o : T → Option GoErr) (o2 : Option (T → Option GoErr)) (s : Subject T) :
    Subject.Set (T := T) none v = (none, some GoErr.nilReceiver) ∧
    Subject.Notify (T := T) none v = (none, some GoErr.nilReceiver) ∧
    Subject.Get (T := T) none = (default, some GoErr.nilReceiver) ∧
    Subject.NotifyAll (T := T) none = some GoErr.nilReceiver ∧
    Subject.Edit none (some fn) = (none, some GoErr.nilReceiver) ∧
    Subject.Attach none (some o) = (none, some GoErr.nilReceiver) ∧
    Subject.Edit (T := T) none none = (none, none) ∧
    Subject.Attach (T := T) none none = (none, none) ∧
    (Subject.Set (some s) v).2 = errorsJoin (s.observers.filterMap (fun ob => ob v)) ∧
    (Subject.Notify (some s) v).2 = errorsJoin (s.observers.filterMap (fun ob => ob v)) ∧
    (Subject.Edit (some s) (some fn)).2
      = errorsJoin (s.observers.filterMap (fun ob => ob (fn s.state))) ∧
    Subject.NotifyAll (some s) = errorsJoin (s.observers.filterMap (fun ob => ob s.state)) ∧
    (Subject.Get (some s)).2 = none ∧
    (Subject.Attach (some s) o2).2 = none := by
  refine ⟨rfl, rfl, rfl, rfl, rfl, rfl, rfl, rfl, rfl, rfl, rfl, rfl, rfl, ?_⟩
  cases o2 <;> rfl

/-- Claim C6 (confirmed): Subject.NotifyAll consults every attached
observer (a failing observer never prevents the others from running); it
returns a nil error exactly when every observer returns nil, and otherwise
returns the single composite error joining exactly the failing observers'
errors. -/
theorem notifyAll_aggregates {T : Type} (s : Subject T) :
    (Subject.NotifyAll (some s) = none ↔ ∀ o ∈ s.observers, o s.state = none) ∧
    (∀ e, Subject.NotifyAll (some s) = some e →
      e = GoErr.joined (s.observers.filterMap (fun o => o s.state)) ∧
      s.observers.filterMap (fun o => o s.state) ≠ []) := by
  have hred : Subject.NotifyAll (some s)
      = errorsJoin (s.observers.filterMap (fun o => o s.state)) := rfl
  constructor
  · rw [hred]
    unfold errorsJoin
    by_cases hE : (s.observers.filterMap (fun o => o s.state)).isEmpty
    · rw [if_pos hE]
      rw [List.isEmpty_iff] at hE
      constructor
      · intro _
        exact List.filterMap_eq_nil_iff.mp hE
      · intro _
        rfl
    · rw [if_neg hE]
      constructor
      · intro h
        exact absurd h (by simp)
      · intro hall
        exfalso
        apply hE
        rw [List.isEmpty_iff]
        exact List.filterMap_eq_nil_iff.mpr hall
  · intro e he
    rw [hred] at he
    unfold errorsJoin at he
    by_cases hE : (s.observers.filterMap (fun o => o s.state)).isEmpty
    · rw [if_pos hE] at he
      exact absurd he (by simp)
    · rw [if_neg hE] at he
      refine ⟨(Option.some.inj he).symm, ?_⟩
      intro hnil
      apply hE
      rw [List.isEmpty_iff]
      exact hnil

/-- Witness for notifyAll_aggregates at the concrete subject with one
succeeding and two failing observers: the composite error joins exactly the
two failures, in observer order, and the succeeding observer is skipped. -/
theorem notifyAll_aggregates_witness :
    GoErr.joined [GoErr.stop, GoErr.keyNotExist]
        = GoErr.joined (sThree.observers.filterMap (fun o => o sThree.state)) ∧
    sThree.observers.filterMap (fun o => o sThree.state) ≠ [] :=
  (notifyAll_aggregates sThree).2 (GoErr.joined [GoErr.stop, GoErr.keyNotExist]) rfl

/-- Claim C7 (confirmed): Buffer.Send fails with the nil-receiver error
exactly on a nil Buffer and with the already-closed error exactly when the
inbound channel is absent, succeeding otherwise; Buffer.Receive fails with
the nil-receiver error exactly on a nil Buffer and with the already-closed
error exactly when the outbound channel is nil or closed-and-drained,
returning the relayed value otherwise; and neither operation ever returns
any other error. -/
theorem send_receive_errors {V : Type} [Inhabited V] (b : Buffer V) (msg : V)
    (recv : Option V) (v : V) :
    Buffer.Send (none : Option (Buffer V)) msg = some GoErr.nilReceiver ∧
    (b.sendTo = false → Buffer.Send (some b) msg = some GoErr.alreadyClosed) ∧
    (b.sendTo = true → Buffer.Send (some b) msg = none) ∧
    Buffer.Receive (none : Option (Buffer V)) recv = (default, some GoErr.nilReceiver) ∧
    (b.receiveFrom = false → (Buffer.Receive (some b) recv).2 = some GoErr.alreadyClosed) ∧
    (b.receiveFrom = true →
      Buffer.Receive (some b) none = (default, some GoErr.alreadyClosed)) ∧
    (b.receiveFrom = true → Buffer.Receive (some b) (some v) = (v, none)) ∧
    (∀ (bOpt : Option (Buffer V)) (e : GoErr), Buffer.Send bOpt msg = some e →
      e = GoErr.nilReceiver ∨ e = GoErr.alreadyClosed) ∧
    (∀ (bOpt : Option (Buffer V)) (e : GoErr), (Buffer.Receive bOpt recv).2 = some e →
      e = GoErr.nilReceiver ∨ e = GoErr.alreadyClosed) := by
  refine ⟨rfl, ?_, ?_, rfl, ?_, ?_, ?_, ?_, ?_⟩
  · intro h
    simp [Buffer.Send, h]
  · intro h
    simp [Buffer.Send, h]
  · intro h
    simp [Buffer.Receive, h]
  · intro h
    simp [Buffer.Receive, h]
  · intro h
    simp [Buffer.Receive, h]
  · intro bOpt e he
    cases bOpt with
    | none =>
      left
      exact (Option.some.inj he).symm
    | some b2 =>
      cases h2 : b2.sendTo with
      | true =>
        simp [Buffer.Send, h2] at he
      | false =>
        right
        simp only [Buffer.Send, h2, Bool.false_eq_true, if_false] at he
        exact (Option.some.inj he).symm
  · intro bOpt e he
    cases bOpt with
    | none =>
      left
      exact (Option.some.inj he).symm
    | some b2 =>
      cases h2 : b2.receiveFrom with
      | true =>
        cases recv with
        | none =>
          right
          simp only [Buffer.Receive, h2, if_true] at he
          exact (Option.some.inj he).symm
        | some v2 =>
          simp [Buffer.Receive, h2] at he
      | false =>
        right
        simp only [Buffer.Receive, h2, Bool.false_eq_true, if_false] at he
        exact (Option.some.inj he).symm

/-- Witness for send_receive_errors at concrete buffers: a torn-down buffer
rejects Send and Receive with the already-closed error, an open one accepts
them. -/
theorem send_receive_errors_witness :
    Buffer.Send (some bufShut) 0 = some GoErr.alreadyClosed ∧
    Buffer.Send (some bufOpen) 0 = none ∧
    Buffer.Receive (some bufOpen) (some 7) = (7, none) ∧
    Buffer.Receive (some bufOpen) (none : Option Nat) = (default, some GoErr.alreadyClosed) :=
  ⟨(send_receive_errors bufShut 0 none 0).2.1 rfl,
   (send_receive_errors bufOpen 0 none 0).2.2.1 rfl,
   (send_receive_errors bufOpen 0 (some 7) 7).2.2.2.2.2.2.1 rfl,
   (send_receive_errors bufOpen 0 none 0).2.2.2.2.2.1 rfl⟩

/-- Claim C8 (confirmed): Buffer.Start on a nil Buffer fails with the
nil-receiver error; on an already started Buffer (non-nil locker) it
returns a nil error, leaves the whole state unchanged, and launches no
goroutines; and a first Start on a fresh Buffer produces a state with a
non-nil locker, so a second Start hits the no-op branch. -/
theorem start_idempotent {V : Type} (b c : Buffer V) (h : b.locker ≠ none) :
    Buffer.Start (none : Option (Buffer V)) = (none, some GoErr.nilReceiver, false) ∧
    Buffer.Start (some b) = (some b, none, false) ∧
    (c.locker = none →
      ∃ c1 : Buffer V, Buffer.Start (some c) = (some c1, none, true) ∧
        c1.locker ≠ none) := by
  refine ⟨rfl, ?_, ?_⟩
  · cases hl : b.locker with
    | none => exact absurd hl h
    | some lk => simp [Buffer.Start, hl]
  · intro hc
    refine ⟨{ q := some { front := [], back := none, size := some 0 },
              sendTo := true, receiveFrom := true,
              locker := some { subjects := [(BufferCondition.IsEmpty, true),
                                            (BufferCondition.IsRunning, true)] } }, ?_, ?_⟩
    · simp [Buffer.Start, hc]
    · simp

/-- Witness for start_idempotent at the concrete started buffer: a second
Start is a no-op that returns nil and launches nothing. -/
theorem start_idempotent_witness :
    Buffer.Start (some bufStarted) = (some bufStarted, none, false) :=
  (start_idempotent bufStarted bufStarted (fun h => Option.noConfusion h)).2.1

/-- The state right after Buffer.Start satisfies the coupling invariant. -/
theorem wired_start {V : Type} : (StartedBuffer.start (V := V)).Wired := by
  refine ⟨rfl, ?_, ?_⟩ <;> simp [StartedBuffer.start]

/-- Enqueue preserves the coupling invariant: the size Subject is bumped
and its observer updates the IsEmpty condition to (new size == 0). -/
theorem wired_enqueue {V : Type} (st : StartedBuffer V) (v : V) (h : st.Wired) :
    (st.enqueue v).Wired := by
  obtain ⟨w1, w2, w3⟩ := h
  cases hb : st.back with
  | none =>
    have hf : st.front = [] := by
      rw [hb] at w1
      exact (List.getLast?_eq_none_iff).mp w1.symm
    rw [hf] at w2
    refine ⟨?_, ?_, ?_⟩ <;>
      simp [StartedBuffer.enqueue, StartedBuffer.Wired, hb, w2, hf]
  | some b =>
    refine ⟨?_, ?_, ?_⟩
    · simp [StartedBuffer.enqueue, hb, w2, List.getLast?_concat]
    · simp [StartedBuffer.enqueue, hb, w2]
    · simp [StartedBuffer.enqueue, hb, w2]

/-- Dequeue preserves the coupling invariant. -/
theorem wired_dequeue {V : Type} (st : StartedBuffer V) (h : st.Wired) :
    (st.dequeue).1.Wired := by
  obtain ⟨w1, w2, w3⟩ := h
  cases hf : st.front with
  | nil =>
    simp only [StartedBuffer.dequeue, hf]
    exact ⟨w1, w2, w3⟩
  | cons x rest =>
    rw [hf] at w2
    cases rest with
    | nil =>
      refine ⟨?_, ?_, ?_⟩
      · simp [StartedBuffer.dequeue, hf, w2]
      · simp [StartedBuffer.dequeue, hf, w2]
      · simp [StartedBuffer.dequeue, hf, w2]
    | cons y t =>
      have hb : st.back = (y :: t).getLast? := by
        rw [w1, hf, List.getLast?_cons_cons]
      refine ⟨?_, ?_, ?_⟩
      · simp [StartedBuffer.dequeue, hf, w2, hb]
      · simp [StartedBuffer.dequeue, hf, w2]
      · simp [StartedBuffer.dequeue, hf, w2]

/-- Every sequence of Enqueue and Dequeue operations preserves the
coupling invariant. -/
theorem wired_ops {V : Type} (ops : List (SBOp V)) :
    ∀ st : StartedBuffer V, st.Wired → (SBOp.applyAll st ops).Wired := by
  induction ops with
  | nil => exact fun st h => h
  | cons op t ih =>
    intro st h
    cases op with
    | enqueue v => exact ih (st.enqueue v) (wired_enqueue st v h)
    | dequeue => exact ih (st.dequeue).1 (wired_dequeue st h)

/-- Claim C2 counterexample: start a Buffer, enqueue one value, then Reset.
The queue reports size 0 but the IsEmpty condition is still false — Reset
dropped the size Subject together with the attached observer without a
final notification, so IsEmpty did not mirror Size() == 0. -/
theorem isEmpty_reset_counterexample :
    (StartedBuffer.reset ((StartedBuffer.start (V := Nat)).enqueue 7)).queueSize = 0 ∧
    (StartedBuffer.reset ((StartedBuffer.start (V := Nat)).enqueue 7)).isEmptyCond = false :=
  ⟨rfl, rfl⟩

/-- Claim C2 (amended): for a started Buffer, after every sequence of
Enqueue and Dequeue operations the IsEmpty condition equals
(Queue.Size() == 0), which equals the real element count being zero.
Reset, however, drops the size Subject and its attached observer without
notifying, so a Reset of a non-empty queue leaves IsEmpty stale (see the
counterexample) and no later operation restores the observer. -/
theorem isEmpty_mirrors_size {V : Type} (ops : List (SBOp V)) :
    (SBOp.applyAll StartedBuffer.start ops).isEmptyCond
      = decide ((SBOp.applyAll StartedBuffer.start ops).queueSize = 0) ∧
    (SBOp.applyAll StartedBuffer.start ops).queueSize
      = ((SBOp.applyAll StartedBuffer.start ops).front.length : Int) := by
  obtain ⟨w1, w2, w3⟩ := wired_ops ops StartedBuffer.start wired_start
  constructor
  · rw [w3, StartedBuffer.queueSize, w2]
  · rw [StartedBuffer.queueSize, w2]

end GoSafe
